import Mathlib

/-!
Verification of the TAC (three-address code) core `tac.py`: the symbolic value
model (`Variable`/`Constant` with EVM 256-bit arithmetic), the TAC operation
model and its textual rendering, and CFG assembly.

The embedding follows the Python source line by line.  Python runtime failures
(NameError for an unbound name, TypeError for an unsupported operand type,
KeyError for a missing dictionary key) are modelled by `Except PyErr`; code
that cannot fail is embedded as a plain function.  Machine integers are `Nat`
held modulo `2 ^ 256` by the `Constant` constructor, exactly as
`Constant.__init__` does with `value % self.max_val`.
-/

/-- Python runtime errors that the embedded code can raise. -/
inductive PyErr where
  | nameError
  | typeError
  | keyError
deriving DecidableEq

/-- Class `Variable`: a symbolic variable with a string identifier (width 32
bytes).  Only the identifier is state. -/
structure Variable where
  identifier : String
deriving DecidableEq

/-- Class `Constant`: a specialised variable holding a constant integer.  The
single field mirrors `self.value`; every instance is produced by the
constructor `Constant.ofInt` below, which reduces modulo `2 ^ 256`. -/
structure Constant where
  value : Nat
deriving DecidableEq

/-- Class attribute `Constant.bits = 256`. -/
def Constant.bits : Nat := 256

/-- Class attribute `Constant.max_val = 2**bits`. -/
def Constant.max_val : Nat := 2 ^ Constant.bits

/-- Embeds `Constant.__init__`: `self.value = value % self.max_val`.  Python
`%` with a positive modulus agrees with `Int.emod`, whose result is
non-negative, so `Int.toNat` loses nothing. -/
def Constant.ofInt (value : Int) : Constant :=
  ⟨(value % (Constant.max_val : Int)).toNat⟩

/-- Embeds `Constant.__eq__`: `self.value == other.value`. -/
def Constant.eq (l r : Constant) : Bool :=
  l.value == r.value

/-- Embeds `Constant.__hash__`: `return self.value`. -/
def Constant.hash (c : Constant) : Nat :=
  c.value

/-- Embeds `Constant.signed` exactly as written in the source:

    def signed(self):
      if self.value & (self.max_val - 1):
        return max_val - self.value

The guard `self.value & (self.max_val - 1)` masks with `2^256 - 1`, so it is
truthy exactly when `self.value != 0` (the value is already < 2^256).  In the
truthy branch the bare name `max_val` is unbound (`max_val` is a class
attribute, reachable only as `self.max_val`/`Constant.max_val`), so evaluating
the return expression raises `NameError`.  In the falsy branch the method
falls off the end and returns Python `None`, modelled as `Option.none`. -/
def Constant.signed (c : Constant) : Except PyErr (Option Int) :=
  if c.value &&& (Constant.max_val - 1) ≠ 0 then
    Except.error PyErr.nameError
  else
    Except.ok none

/-- Embeds `Constant.ADD`: `cls(l.value + r.value)`. -/
def Constant.ADD (l r : Constant) : Constant :=
  Constant.ofInt ((l.value : Int) + (r.value : Int))

/-- Embeds `Constant.MUL`: `cls(l.value * r.value)`. -/
def Constant.MUL (l r : Constant) : Constant :=
  Constant.ofInt ((l.value : Int) * (r.value : Int))

/-- Embeds `Constant.SUB`: `cls(l.value - r.value)`. -/
def Constant.SUB (l r : Constant) : Constant :=
  Constant.ofInt ((l.value : Int) - (r.value : Int))

/-- Embeds `Constant.DIV`: `cls(0 if r.value == 0 else l.value // r.value)`.
Python `//` on the non-negative operands is `Nat` division. -/
def Constant.DIV (l r : Constant) : Constant :=
  Constant.ofInt (if r.value = 0 then 0 else (l.value / r.value : Nat))

/-- Embeds `Constant.SDIV`:

    s_val, o_val = l.signed(), r.signed()
    sign = 1 if s_val * o_val >= 0 else -1
    return cls(0 if o_val == 0 else sign * (abs(s_val) // abs(o_val)))

`l.signed()` is evaluated first and its exception propagates; if both calls
return `None` (value 0 on both sides), the product `s_val * o_val` raises
`TypeError`.  The arithmetic branch (both `some`) is kept for fidelity even
though `Constant.signed` never returns an integer. -/
def Constant.SDIV (l r : Constant) : Except PyErr Constant := do
  let s_val ← l.signed
  let o_val ← r.signed
  match s_val, o_val with
  | some s, some o =>
    let sign : Int := if 0 ≤ s * o then 1 else -1
    pure (Constant.ofInt (if o = 0 then 0 else sign * (s.natAbs / o.natAbs : Nat)))
  | _, _ => Except.error PyErr.typeError

/-- Embeds `Constant.MOD`: `cls(0 if r.value == 0 else l.value % r.value)`. -/
def Constant.MOD (l r : Constant) : Constant :=
  Constant.ofInt (if r.value = 0 then 0 else (l.value % r.value : Nat))

/-- Embeds `Constant.EXP`: `cls(b.value ** e.value)`.  The reduction modulo
`2 ^ 256` happens inside the constructor. -/
def Constant.EXP (b e : Constant) : Constant :=
  Constant.ofInt ((b.value : Int) ^ e.value)

/-- Embeds `Constant.LT`: `cls(1 if l.value < r.value else 0)`. -/
def Constant.LT (l r : Constant) : Constant :=
  Constant.ofInt (if l.value < r.value then 1 else 0)

/-- Embeds `Constant.GT` exactly as written in the source (line 119):
`cls(1 if l.value < r.value else 0)` — the comparison is `<`, identical to
`Constant.LT`, not `>`. -/
def Constant.GT (l r : Constant) : Constant :=
  Constant.ofInt (if l.value < r.value then 1 else 0)

/-- Embeds `Constant.EQ`: `cls(1 if l.value == r.value else 0)`. -/
def Constant.EQ (l r : Constant) : Constant :=
  Constant.ofInt (if l.value = r.value then 1 else 0)

/-- Embeds `Constant.ISZERO`: `cls(1 if v.value == 0 else 0)`. -/
def Constant.ISZERO (v : Constant) : Constant :=
  Constant.ofInt (if v.value = 0 then 1 else 0)

/-- Embeds `Constant.BYTE` exactly as written in the source:

    return cls((v >> (bits - b*8)) & 0xFF)

Evaluating the right operand of `>>` loads the bare name `bits`, which is
unbound inside the classmethod (`bits` is a class attribute, reachable only as
`cls.bits`), so the call raises `NameError` unconditionally before any
arithmetic happens.  (Independently, `b * 8` and `v >> _` would be
`TypeError`s: `b` and `v` are `Constant` objects, which define neither `__mul__`
nor `__rshift__`.) -/
def Constant.BYTE (_b _v : Constant) : Except PyErr Constant :=
  Except.error PyErr.nameError

/-- A TAC operand is a `Variable` or (its subclass) a `Constant`; `str(arg)`
dispatches to the appropriate `__str__`. -/
inductive Operand where
  | var : Variable → Operand
  | const : Constant → Operand
deriving DecidableEq

/-- Python `hex(n)` for a non-negative integer: `0x`-prefixed, lower-case
digits, no leading zeros (`hex(0) = "0x0"`). -/
def hexStr (n : Nat) : String :=
  "0x" ++ String.mk (Nat.toDigits 16 n)

/-- Python `sep.join(list)`: the elements of `list` concatenated with `sep`
between consecutive elements (empty string for an empty list). -/
def joinSep (sep : String) : List String → String
  | [] => ""
  | [s] => s
  | s :: ss => s ++ sep ++ joinSep sep ss

/-- Concatenation of a list of strings (used to state rendering formats). -/
def concatAll : List String → String
  | [] => ""
  | s :: ss => s ++ concatAll ss

/-- Embeds `Variable.__str__` (`return self.identifier`) and
`Constant.__str__` (`return hex(self.value)`), as dispatched on an operand. -/
def Operand.str : Operand → String
  | Operand.var v => v.identifier
  | Operand.const c => hexStr c.value

/-- Class `TACOp`: opcode name, ordered argument list, byte address. -/
structure TACOp where
  name : String
  args : List Operand
  address : Nat
deriving DecidableEq

/-- Embeds `TACOp.__str__`:

    return "||: || ||".format(hex(self.address), self.name,
                " ".join([str(arg) for arg in self.args]))

(each `||` standing for a format placeholder). -/
def TACOp.str (op : TACOp) : String :=
  hexStr op.address ++ ": " ++ op.name ++ " " ++
    joinSep " " (op.args.map Operand.str)

/-- Class `TACAssignOp` (subclass of `TACOp`): adds the bound destination
`lhs` and the `print_name` flag. -/
structure TACAssignOp where
  lhs : Operand
  name : String
  args : List Operand
  address : Nat
  print_name : Bool
deriving DecidableEq

/-- Embeds `TACAssignOp.__str__`:

    arglist = ([str(self.name)] if self.print_name else []) \
              + [str(arg) for arg in self.args]
    return "||: || = ||".format(hex(self.address), self.lhs, " ".join(arglist))
-/
def TACAssignOp.str (op : TACAssignOp) : String :=
  hexStr op.address ++ ": " ++ op.lhs.str ++ " = " ++
    joinSep " " ((if op.print_name then [op.name] else []) ++ op.args.map Operand.str)

/-- A block of the externally supplied stack-based CFG (`cfg.blocks`):
object identity is modelled by the id `bid`, and the ordered `parents` and
`children` references are modelled by the ids of the referenced blocks. -/
structure EVMBlock where
  bid : Nat
  parents : List Nat
  children : List Nat
deriving DecidableEq

/-- The externally supplied stack-based CFG: its blocks, and its
`unresolved_jumps` — for each unresolved-jump line, the id of the block that
line belongs to (`line.block`). -/
structure SourceCFG where
  blocks : List EVMBlock
  unresolved_jumps : List Nat
deriving DecidableEq

/-- Class `TACBlock`, as built by `TACCFG.__init__`.

Modelled from the spec: the destackifier (`destackify.Destackifier`) is not
under `src/`; per the spec it is an opaque, pure, deterministic block
converter, so the payload it produces (`ops`, `stack_additions`,
`stack_pops`) is an opaque field `core : α`.  The mutable graph references
`predecessors`/`successors` are modelled by arena handles: the ids of the
source blocks whose converted images they point at (the converted map is
keyed by those ids). -/
structure TACBlock (α : Type) where
  core : α
  predecessors : List Nat
  successors : List Nat
  has_unresolved_jump : Bool
deriving DecidableEq

/-- The in-place mutation `block.has_unresolved_jump = True` on one
converted block. -/
def setJump {α : Type} (t : TACBlock α) : TACBlock α :=
  { core := t.core, predecessors := t.predecessors, successors := t.successors,
    has_unresolved_jump := true }

/-- The in-place mutations `block.predecessors = ps; block.successors = cs`
on one converted block. -/
def setEdges {α : Type} (t : TACBlock α) (ps cs : List Nat) : TACBlock α :=
  { core := t.core, predecessors := ps, successors := cs,
    has_unresolved_jump := t.has_unresolved_jump }

/-- Embeds `converted_map[line.block].has_unresolved_jump = True` for one
unresolved-jump line: a missing key raises `KeyError`. -/
def setUnresolved {α : Type} (m : List (Nat × TACBlock α)) (j : Nat) :
    Except PyErr (List (Nat × TACBlock α)) :=
  if j ∈ m.map Prod.fst then
    Except.ok (m.map (fun p => if p.1 = j then (p.1, setJump p.2) else p))
  else
    Except.error PyErr.keyError

/-- Embeds the loop `for line in cfg.unresolved_jumps: ...` of
`TACCFG.__init__`. -/
def markPass {α : Type} :
    List (Nat × TACBlock α) → List Nat → Except PyErr (List (Nat × TACBlock α))
  | m, [] => Except.ok m
  | m, j :: js =>
    match setUnresolved m j with
    | Except.error e => Except.error e
    | Except.ok m2 => markPass m2 js

/-- Embeds one iteration of the edge-connection loop of `TACCFG.__init__`:

    converted.predecessors = [converted_map[parent] for parent in block.parents]
    converted.successors = [converted_map[child] for child in block.children]

each `converted_map[...]` lookup raising `KeyError` for a missing key; the
looked-up images are stored by their arena handles. -/
def linkBlock {α : Type} (m : List (Nat × TACBlock α)) (b : EVMBlock) :
    Except PyErr (List (Nat × TACBlock α)) :=
  if ∀ k ∈ b.parents ++ b.children, k ∈ m.map Prod.fst then
    Except.ok (m.map (fun p =>
      if p.1 = b.bid then (p.1, setEdges p.2 b.parents b.children) else p))
  else
    Except.error PyErr.keyError

/-- Embeds the loop `for block in converted_map: ...` of `TACCFG.__init__`
(dict iteration follows insertion order, i.e. `cfg.blocks` order). -/
def linkPass {α : Type} :
    List (Nat × TACBlock α) → List EVMBlock → Except PyErr (List (Nat × TACBlock α))
  | m, [] => Except.ok m
  | m, b :: bs =>
    match linkBlock m b with
    | Except.error e => Except.error e
    | Except.ok m2 => linkPass m2 bs

/-- Embeds `TACCFG.__init__`: the conversion pass building `converted_map`
(one dict entry per source block, keyed by block identity = `bid`), the
unresolved-jump marking pass, then the edge-connection pass.  `conv` is the
external destackifier collaborator. -/
def TACCFG.assemble {α : Type} (conv : EVMBlock → α) (cfg : SourceCFG) :
    Except PyErr (List (Nat × TACBlock α)) :=
  let converted := cfg.blocks.map (fun b =>
    (b.bid, ({ core := conv b, predecessors := [], successors := [],
               has_unresolved_jump := false } : TACBlock α)))
  match markPass converted cfg.unresolved_jumps with
  | Except.error e => Except.error e
  | Except.ok marked => linkPass marked cfg.blocks

/-- The last block of `bs` whose id is `k`, if any — the entry such a block
leaves in a dict keyed by id after all of `bs` is inserted in order. -/
def findLast : List EVMBlock → Nat → Option EVMBlock
  | [], _ => none
  | b :: bs, k =>
    match findLast bs k with
    | some b2 => some b2
    | none => if b.bid = k then some b else none

example : Constant.ofInt (-1) = ⟨2 ^ 256 - 1⟩ := by decide
example : Constant.ADD (Constant.ofInt 3) (Constant.ofInt 5) = Constant.ofInt 8 := by decide
example : Constant.signed (Constant.ofInt 0) = Except.ok none := rfl
example : Constant.signed (Constant.ofInt 7) = Except.error PyErr.nameError := rfl

/-! ### Helper lemmas -/

/-- The constructor reduces modulo `2 ^ 256` (integer view). -/
theorem Constant.ofInt_value_int (v : Int) :
    ((Constant.ofInt v).value : Int) = v % 2 ^ 256 := by
  unfold Constant.ofInt Constant.max_val Constant.bits
  rw [Int.toNat_of_nonneg (Int.emod_nonneg v (by norm_num))]
  norm_num

/-- The constructor reduces modulo `2 ^ 256` (natural-number view). -/
theorem Constant.ofInt_natCast_value (n : Nat) :
    (Constant.ofInt (n : Int)).value = n % 2 ^ 256 := by
  have h := Constant.ofInt_value_int (n : Int)
  have h2 : ((n % 2 ^ 256 : Nat) : Int) = (n : Int) % 2 ^ 256 := by push_cast; ring
  exact_mod_cast h.trans h2.symm

/-! ### Claim theorems -/

/-- C1: the claim says `signed(c)` is the two's-complement interpretation of
`c.value`.  The source instead raises `NameError` for every non-zero value
(the bare name `max_val` in its return expression is unbound) and returns
`None` for the value 0, so it never produces an integer at all; in particular
on `Constant(1)` (top bit clear, claimed result 1) it raises. -/
theorem signed_never_returns_an_integer :
    Constant.signed (Constant.ofInt 1) = Except.error PyErr.nameError ∧
    Constant.signed (Constant.ofInt 0) = Except.ok none ∧
    ∀ c : Constant, Constant.signed c = Except.error PyErr.nameError ∨
      Constant.signed c = Except.ok none := by
  refine ⟨rfl, rfl, ?_⟩
  intro c
  unfold Constant.signed
  split
  · exact Or.inl rfl
  · exact Or.inr rfl

/-- C2: the claim says `GT(l,r)` is 1 iff `l.value > r.value`.  The source
(line 119) compares with `<`, duplicating `LT`: on `l = 1, r = 0` it returns
0 where the claim demands 1, and on `l = 0, r = 1` it returns 1 where the
claim demands 0. -/
theorem gT_is_less_than :
    Constant.GT (Constant.ofInt 1) (Constant.ofInt 0) = Constant.ofInt 0 ∧
    Constant.GT (Constant.ofInt 0) (Constant.ofInt 1) = Constant.ofInt 1 ∧
    ∀ l r : Constant, Constant.GT l r = Constant.LT l r := by
  exact ⟨by decide, by decide, fun l r => rfl⟩

set_option maxRecDepth 8192 in
/-- C3: the claim says `SDIV` performs signed truncated division, handling
the `-2^255 / -1` case without trapping.  `SDIV` begins with `l.signed()`,
which raises `NameError` on every non-zero value, so on the encodings of
`-2^255` and `-1` the call raises instead of returning the encoding of
`-2^255` (value `2^255`). -/
theorem sDIV_raises_on_min_over_minus_one :
    Constant.SDIV (Constant.ofInt (-(2 ^ 255))) (Constant.ofInt (-1)) =
      Except.error PyErr.nameError ∧
    (Constant.ofInt (-(2 ^ 255))).value = 2 ^ 255 ∧
    (Constant.ofInt (-1)).value = 2 ^ 256 - 1 := by
  refine ⟨rfl, rfl, rfl⟩

/-- C4: the claim says `BYTE(i,v)` extracts big-endian byte `i` (0 if
`i ≥ 32`).  The source body `cls((v >> (bits - b*8)) & 0xFF)` raises
`NameError` unconditionally (bare unbound `bits`; the operand objects also
lack `__mul__`/`__rshift__`), so at `i = 31, v = 0xFF` the call raises
instead of returning `0xFF`. -/
theorem bYTE_raises :
    Constant.BYTE (Constant.ofInt 31) (Constant.ofInt 0xFF) =
      Except.error PyErr.nameError ∧
    ∀ b v : Constant, Constant.BYTE b v = Except.error PyErr.nameError := by
  exact ⟨rfl, fun b v => rfl⟩

/-- C5: `EXP(b,e).value = (b.value ^ e.value) mod 2^256` — the reduction is
performed by the constructor the result is returned through. -/
theorem eXP_reduces_mod_2_pow_256 (b e : Constant) :
    (Constant.EXP b e).value = (b.value ^ e.value) % 2 ^ 256 := by
  have h : Constant.EXP b e = Constant.ofInt ((b.value ^ e.value : Nat) : Int) := by
    unfold Constant.EXP
    congr 1
    push_cast
    ring
  rw [h, Constant.ofInt_natCast_value]

/-- C6: `ADD` and `SUB` wrap modulo `2 ^ 256` on the full operand range. -/
theorem aDD_SUB_wrap (a b : Nat) (ha : a < 2 ^ 256) (hb : b < 2 ^ 256) :
    (Constant.ADD (Constant.ofInt a) (Constant.ofInt b)).value = (a + b) % 2 ^ 256 ∧
    ((Constant.SUB (Constant.ofInt a) (Constant.ofInt b)).value : Int) =
      ((a : Int) - (b : Int)) % 2 ^ 256 := by
  have hva : (Constant.ofInt (a : Int)).value = a := by
    rw [Constant.ofInt_natCast_value, Nat.mod_eq_of_lt ha]
  have hvb : (Constant.ofInt (b : Int)).value = b := by
    rw [Constant.ofInt_natCast_value, Nat.mod_eq_of_lt hb]
  constructor
  · have h : Constant.ADD (Constant.ofInt a) (Constant.ofInt b) =
        Constant.ofInt ((a + b : Nat) : Int) := by
      unfold Constant.ADD
      rw [hva, hvb]
      congr 1
    rw [h, Constant.ofInt_natCast_value]
  · have h : Constant.SUB (Constant.ofInt a) (Constant.ofInt b) =
        Constant.ofInt ((a : Int) - (b : Int)) := by
      unfold Constant.SUB
      rw [hva, hvb]
    rw [h, Constant.ofInt_value_int]

/-- Witness for C6 at `a = 3, b = 5`. -/
theorem aDD_SUB_wrap_witness :
    (Constant.ADD (Constant.ofInt 3) (Constant.ofInt 5)).value = (3 + 5) % 2 ^ 256 ∧
    ((Constant.SUB (Constant.ofInt 3) (Constant.ofInt 5)).value : Int) =
      ((3 : Int) - (5 : Int)) % 2 ^ 256 := by
  have h := aDD_SUB_wrap 3 5 (by norm_num) (by norm_num)
  exact_mod_cast h

/-- C7: division and modulo by the constant 0 yield the constant 0; both
operations are total functions on `Constant` (they return through the
constructor, never raising). -/
theorem dIV_MOD_by_zero_yield_zero (a : Constant) :
    (Constant.DIV a (Constant.ofInt 0)).value = 0 ∧
    (Constant.MOD a (Constant.ofInt 0)).value = 0 := by
  constructor <;> rfl

/-- C10: every constructed `Constant` holds its value reduced into
`[0, 2^256)`, equality (`__eq__`) holds exactly on equal canonical
representatives, and `__hash__` is the canonical value itself. -/
theorem constant_canonical_representatives (x y : Int) :
    (Constant.ofInt x).value < 2 ^ 256 ∧
    (Constant.eq (Constant.ofInt x) (Constant.ofInt y) = true ↔
      x % 2 ^ 256 = y % 2 ^ 256) ∧
    Constant.hash (Constant.ofInt x) = (Constant.ofInt x).value := by
  have hx := Constant.ofInt_value_int x
  have hy := Constant.ofInt_value_int y
  have hpos : (0 : Int) < 2 ^ 256 := by positivity
  refine ⟨?_, ?_, rfl⟩
  · have hlt : ((Constant.ofInt x).value : Int) < 2 ^ 256 := by
      rw [hx]
      exact Int.emod_lt_of_pos x hpos
    exact_mod_cast hlt
  · unfold Constant.eq
    rw [beq_iff_eq]
    constructor
    · intro h
      have h2 : ((Constant.ofInt x).value : Int) = ((Constant.ofInt y).value : Int) := by
        exact_mod_cast h
      rw [hx, hy] at h2
      exact h2
    · intro h
      have h2 : ((Constant.ofInt x).value : Int) = ((Constant.ofInt y).value : Int) := by
        rw [hx, hy]
        exact h
      exact_mod_cast h2

/-- A separator-joined non-empty list is its head followed by each remaining
element preceded by one separator copy. -/
theorem joinSep_cons_concatAll (y : String) (l : List String) :
    joinSep " " (y :: l) = y ++ concatAll (l.map (fun s => " " ++ s)) := by
  induction l generalizing y with
  | nil => simp [joinSep, concatAll]
  | cons a as ih =>
    show y ++ " " ++ joinSep " " (a :: as) = _
    rw [ih a]
    simp [concatAll, String.append_assoc]

/-- C9 (amended): an `Operation` with a non-empty argument list renders
exactly as `"<hex-address>: <name> <args...>"` (each argument preceded by one
space, so no whitespace is appended after the last argument), and an
`AssignOperation` with the mnemonic flag set renders exactly as
`"<hex-address>: <lhs> = <name> <args...>"` for every argument list;
addresses render through `hexStr` (`0x`-prefixed lower-case hex).  With an
empty argument list a plain `Operation` instead renders with one trailing
space after the name (see the counterexample theorem). -/
theorem render_formats (op : TACOp) (aop : TACAssignOp)
    (hargs : op.args ≠ []) (hname : aop.print_name = true) :
    TACOp.str op =
      hexStr op.address ++ ": " ++ op.name ++
        concatAll (op.args.map (fun a => " " ++ a.str)) ∧
    TACAssignOp.str aop =
      hexStr aop.address ++ ": " ++ aop.lhs.str ++ " = " ++ aop.name ++
        concatAll (aop.args.map (fun a => " " ++ a.str)) := by
  constructor
  · obtain ⟨x, xs, hx⟩ := List.exists_cons_of_ne_nil hargs
    rw [TACOp.str, hx, List.map_cons, joinSep_cons_concatAll]
    simp only [concatAll, String.append_assoc, List.map_map]
    rfl
  · rw [TACAssignOp.str, hname]
    simp only [if_pos]
    rw [List.singleton_append, joinSep_cons_concatAll]
    simp only [String.append_assoc, List.map_map]
    rfl

/-- Witness for C9 on the spec's two examples. -/
theorem render_formats_witness :
    TACOp.str ⟨"ADD", [Operand.var ⟨"v1"⟩, Operand.var ⟨"v2"⟩], 16⟩ =
      "0x10: ADD v1 v2" ∧
    TACAssignOp.str
        ⟨Operand.var ⟨"v3"⟩, "ADD", [Operand.var ⟨"v1"⟩, Operand.var ⟨"v2"⟩], 16, true⟩ =
      "0x10: v3 = ADD v1 v2" := by
  have h := render_formats
    ⟨"ADD", [Operand.var ⟨"v1"⟩, Operand.var ⟨"v2"⟩], 16⟩
    ⟨Operand.var ⟨"v3"⟩, "ADD", [Operand.var ⟨"v1"⟩, Operand.var ⟨"v2"⟩], 16, true⟩
    (by simp) rfl
  exact ⟨h.1.trans (by decide), h.2.trans (by decide)⟩

/-- C9 counterexample: an `Operation` with an empty argument list renders as
`"0x10: STOP "` — with a trailing space — not as `"0x10: STOP"`, so the
claimed no-trailing-whitespace format does not cover the empty-argument
case. -/
theorem render_empty_args_trailing_space :
    TACOp.str ⟨"STOP", [], 16⟩ = "0x10: STOP " ∧
    TACOp.str ⟨"STOP", [], 16⟩ ≠ "0x10: STOP" := by
  constructor <;> decide

/-- A keyed in-place update never changes the key list of the conversion
table. -/
theorem update_map_fst {α : Type} (m : List (Nat × TACBlock α))
    (c : Nat × TACBlock α → Prop) [DecidablePred c]
    (g : Nat × TACBlock α → TACBlock α) :
    (m.map (fun p => if c p then (p.1, g p) else p)).map Prod.fst =
      m.map Prod.fst := by
  rw [List.map_map]
  apply List.map_congr_left
  intro p hp
  by_cases h : c p <;> simp [h]

/-- One marking step of `markPass` on a present key. -/
theorem markPass_cons {α : Type} (m : List (Nat × TACBlock α)) (j : Nat)
    (js : List Nat) (hj : j ∈ m.map Prod.fst) :
    markPass m (j :: js) = markPass (m.map (fun p =>
      if p.1 = j then (p.1, setJump p.2) else p)) js := by
  simp [markPass, setUnresolved, hj]

/-- The whole marking pass succeeds on present keys and sets the flag of
exactly the referenced entries. -/
theorem markPass_eq {α : Type} (js : List Nat) (m : List (Nat × TACBlock α))
    (h : ∀ j ∈ js, j ∈ m.map Prod.fst) :
    markPass m js = Except.ok (m.map (fun p =>
      if p.1 ∈ js then (p.1, setJump p.2) else p)) := by
  induction js generalizing m with
  | nil =>
    simp [markPass]
  | cons j js ih =>
    rw [markPass_cons m j js (h j (List.mem_cons_self j js))]
    rw [ih _ ?hkeys]
    case hkeys =>
      intro j2 hj2
      rw [update_map_fst]
      exact h j2 (List.mem_cons_of_mem j hj2)
    congr 1
    rw [List.map_map]
    apply List.map_congr_left
    intro p hp
    by_cases h1 : p.1 = j <;> by_cases h2 : p.1 ∈ js <;>
      simp [Function.comp, setJump, h1, h2, List.mem_cons]

/-- One linking step of `linkPass` when every referenced edge key is
present. -/
theorem linkPass_cons {α : Type} (m : List (Nat × TACBlock α)) (b : EVMBlock)
    (bs : List EVMBlock) (hb : ∀ k ∈ b.parents ++ b.children, k ∈ m.map Prod.fst) :
    linkPass m (b :: bs) = linkPass (m.map (fun p =>
      if p.1 = b.bid then (p.1, setEdges p.2 b.parents b.children) else p)) bs := by
  show (match linkBlock m b with
    | Except.error e => Except.error e
    | Except.ok m2 => linkPass m2 bs) = _
  unfold linkBlock
  rw [if_pos hb]

/-- `findLast` misses keys that are not in the list. -/
theorem findLast_eq_none (bs : List EVMBlock) (k : Nat)
    (h : k ∉ bs.map EVMBlock.bid) : findLast bs k = none := by
  induction bs with
  | nil => rfl
  | cons b bs ih =>
    simp only [List.map_cons, List.mem_cons] at h
    push_neg at h
    rw [findLast, ih h.2]
    simp [Ne.symm h.1]

/-- On a duplicate-free id list, `findLast` returns the unique member with
the looked-up id. -/
theorem findLast_mem_nodup (bs : List EVMBlock) (b : EVMBlock)
    (hnd : (bs.map EVMBlock.bid).Nodup) (hb : b ∈ bs) :
    findLast bs b.bid = some b := by
  induction bs with
  | nil => cases hb
  | cons c cs ih =>
    rw [List.map_cons, List.nodup_cons] at hnd
    rcases List.mem_cons.mp hb with rfl | hmem
    · rw [findLast, findLast_eq_none cs b.bid hnd.1]
      simp
    · rw [findLast, ih hnd.2 hmem]

/-- The whole linking pass succeeds when all edges are present, and gives
every entry the edge lists of the last (on duplicate-free ids: the unique)
source block carrying its key. -/
theorem linkPass_eq {α : Type} (bs : List EVMBlock) (m : List (Nat × TACBlock α))
    (h : ∀ b ∈ bs, ∀ k ∈ b.parents ++ b.children, k ∈ m.map Prod.fst) :
    linkPass m bs = Except.ok (m.map (fun p =>
      match findLast bs p.1 with
      | some b => (p.1, setEdges p.2 b.parents b.children)
      | none => p)) := by
  induction bs generalizing m with
  | nil =>
    simp [linkPass, findLast]
  | cons b bs ih =>
    rw [linkPass_cons m b bs (h b (List.mem_cons_self b bs))]
    rw [ih _ ?hkeys]
    case hkeys =>
      intro b2 hb2 k hk
      rw [update_map_fst]
      exact h b2 (List.mem_cons_of_mem b hb2) k hk
    congr 1
    rw [List.map_map]
    apply List.map_congr_left
    intro p hp
    rcases hfl : findLast bs p.1 with _ | b2
    · by_cases h1 : p.1 = b.bid
      · rw [h1] at hfl
        simp [Function.comp, setEdges, findLast, h1, hfl]
      · simp [Function.comp, setEdges, findLast, h1, hfl, Ne.symm h1]
    · by_cases h1 : p.1 = b.bid
      · rw [h1] at hfl
        simp [Function.comp, setEdges, findLast, h1, hfl]
      · simp [Function.comp, setEdges, findLast, h1, hfl]

/-- C8: on a well-formed source graph (distinct block identities, every
unresolved-jump marker and every parent/child reference naming a block of the
graph), `TACCFG.__init__` produces a conversion table with exactly one entry
per source block, in source order, whose entry for block `b` holds the
converted payload `conv b`, predecessor and successor lists that are the
arena handles of the converted images of `b.parents` and `b.children` in the
same order, and an unresolved-jump flag that is true iff some unresolved-jump
marker references `b`. -/
theorem cfg_assembly_isomorphic {α : Type} (conv : EVMBlock → α) (cfg : SourceCFG)
    (hnodup : (cfg.blocks.map EVMBlock.bid).Nodup)
    (hjumps : ∀ j ∈ cfg.unresolved_jumps, j ∈ cfg.blocks.map EVMBlock.bid)
    (hedges : ∀ b ∈ cfg.blocks, ∀ k ∈ b.parents ++ b.children,
      k ∈ cfg.blocks.map EVMBlock.bid) :
    TACCFG.assemble conv cfg = Except.ok (cfg.blocks.map (fun b =>
      (b.bid, { core := conv b, predecessors := b.parents, successors := b.children,
                has_unresolved_jump := decide (b.bid ∈ cfg.unresolved_jumps) }))) := by
  have hkeys0 : (cfg.blocks.map (fun b =>
      (b.bid, ({ core := conv b, predecessors := [], successors := [],
                 has_unresolved_jump := false } : TACBlock α)))).map Prod.fst =
      cfg.blocks.map EVMBlock.bid := by
    rw [List.map_map]
    rfl
  have h1 := markPass_eq cfg.unresolved_jumps
    (cfg.blocks.map (fun b =>
      (b.bid, ({ core := conv b, predecessors := [], successors := [],
                 has_unresolved_jump := false } : TACBlock α))))
    (by simp only [hkeys0]; exact hjumps)
  have hkeys1 : ((cfg.blocks.map (fun b =>
      (b.bid, ({ core := conv b, predecessors := [], successors := [],
                 has_unresolved_jump := false } : TACBlock α)))).map (fun p =>
        if p.1 ∈ cfg.unresolved_jumps then (p.1, setJump p.2) else p)).map Prod.fst =
      cfg.blocks.map EVMBlock.bid := by
    rw [update_map_fst]
    exact hkeys0
  have h2 := linkPass_eq cfg.blocks
    ((cfg.blocks.map (fun b =>
      (b.bid, ({ core := conv b, predecessors := [], successors := [],
                 has_unresolved_jump := false } : TACBlock α)))).map (fun p =>
        if p.1 ∈ cfg.unresolved_jumps then (p.1, setJump p.2) else p))
    (by simp only [hkeys1]; exact hedges)
  unfold TACCFG.assemble
  simp only [h1]
  simp only [h2]
  congr 1
  rw [List.map_map, List.map_map]
  apply List.map_congr_left
  intro b hb
  have hfl := findLast_mem_nodup cfg.blocks b hnodup hb
  by_cases hmem : b.bid ∈ cfg.unresolved_jumps <;>
    simp [Function.comp, setJump, setEdges, hmem, hfl]

/-- Witness for C8 on the graph with blocks `A = 0`, `B = 1`, `C = 2`, edges
`A→B`, `A→C`, and one unresolved-jump marker on `A`. -/
theorem cfg_assembly_isomorphic_witness :
    TACCFG.assemble (fun b => b.bid)
        ⟨[⟨0, [], [1, 2]⟩, ⟨1, [0], []⟩, ⟨2, [0], []⟩], [0]⟩ =
      Except.ok [(0, ⟨0, [], [1, 2], true⟩), (1, ⟨1, [0], [], false⟩),
                 (2, ⟨2, [0], [], false⟩)] := by
  have h := cfg_assembly_isomorphic (fun b => b.bid)
    ⟨[⟨0, [], [1, 2]⟩, ⟨1, [0], []⟩, ⟨2, [0], []⟩], [0]⟩
    (by decide) (by decide) (by decide)
  exact h.trans (congrArg Except.ok (by decide))
